import Mathlib

/-!
# Verification of the PennyLane differentiable batch-execution bridge

Shallow embedding of `pennylane/interfaces/autograd.py` and
`pennylane/interfaces/jax.py`: the execution dispatchers, the backward/tangent
rules registered with the host AD engines, the per-backward-pass Jacobian
cache, the VJP assembly over shot partitions, and the result-marshaling
helpers.  External collaborators (the backend `execute_fn`, the per-tape
gradient contraction rules, the tape methods `bind_new_parameters` and
`convert_to_numpy_parameters`, and `qml.math.get_trainable_indices`) are
modelled at their interface boundary, either as explicit function arguments
or as definitions written from the specification and marked as such.
-/

namespace PennyLane

/-- Measurement kinds distinguished by the source: `CountsMP`, `ProbabilityMP`,
`SampleMP` are tested with `isinstance`; everything else (expectation values
and the like) behaves uniformly. -/
inductive MeasurementKind
  | counts
  | probs
  | sample
  | expval
deriving DecidableEq, Repr

/-- A measurement process: its kind and the number of wires it acts on
(`len(m.wires)`, used by `_validate_tapes`). -/
structure Measurement where
  kind : MeasurementKind
  wires : Nat
deriving DecidableEq, Repr

/-- A tape parameter: its numeric value, its `requires_grad` flag (consulted
when recomputing the trainable indices), and whether it is a concrete numeric
value rather than an AD-engine tracer (`convert_to_numpy_parameters` forces
concreteness). -/
structure Param where
  val : ℚ
  requires_grad : Bool
  concrete : Bool
deriving DecidableEq, Repr

/-- A quantum tape as seen by this bridge: the full parameter list, the
mutable trainable-parameter index annotation, the measurements, the output
dimension (`tape.output_dim`) and the broadcast batch size
(`tape.batch_size`). -/
structure Tape where
  params : List Param
  trainable_params : List Nat
  measurements : List Measurement
  output_dim : Nat
  batch_size : Option Nat
deriving DecidableEq, Repr

/-- The `gradient_fn` argument of the dispatchers: absent (`None`), a gradient
transform (`isinstance(gradient_fn, qml.gradients.gradient_transform)` holds),
or a terminal device-level gradient function.  Both callables carry a
`__name__`, compared against `"param_shift"` by the backward rules. -/
inductive GradientFn
  | absent
  | transform (name : String)
  | device (name : String)
deriving DecidableEq, Repr

/-- The truthiness-and-name test `gradient_fn and gradient_fn.__name__ ==
"param_shift"` from `vjp.grad_fn` / `_vjp_legacy.grad_fn`. -/
def GradientFn.is_param_shift_name : GradientFn → Bool
  | .absent => false
  | .transform name => name == "param_shift"
  | .device name => name == "param_shift"

/-- `isinstance(gradient_fn, qml.gradients.gradient_transform)`. -/
def GradientFn.is_transform : GradientFn → Bool
  | .transform _ => true
  | _ => false

/-- Errors raised by the JAX interface module (`InterfaceUnsupportedError`
with the respective message). -/
inductive InterfaceErr
  | firstOrderOnly
  | mixedSampleMeasure
  | multiProbWires
  | vectorValuedFwd
  | broadcastedCounts
deriving DecidableEq, Repr

/-- Modelled from the spec: `qml.math.get_trainable_indices` is not under
`src/`.  The spec says each tape's trainable-parameter index set is
"(re)computed from its full parameter list", selecting the parameters flagged
as differentiable; the model returns the indices of the parameters whose
`requires_grad` flag is set. -/
def get_trainable_indices (params : List Param) : List Nat :=
  (List.range params.length).filter fun i =>
    ((params.get? i).map Param.requires_grad).getD false

/-- The trainable-parameter prologue applied to one tape:
`params = tape.get_parameters(trainable_only=False);
tape.trainable_params = qml.math.get_trainable_indices(params)`. -/
def recompute_trainable (t : Tape) : Tape :=
  { t with trainable_params := get_trainable_indices t.params }

/-- Modelled from the spec: `tape.bind_new_parameters(a, indices)` is not
under `src/`.  The spec says "bind new parameters, get a new tape": the call
returns a copy of the tape in which the parameter at the k-th listed index is
replaced by the k-th supplied value, every other parameter kept; the receiver
is not mutated (the model is a pure function). -/
def bind_new_parameters (t : Tape) (a : List Param) (indices : List Nat) : Tape :=
  { t with
    params := t.params.enum.map fun ip =>
      match indices.findIdx? (· == ip.1) with
      | some k => a.getD k ip.2
      | none => ip.2 }

/-- Modelled from the spec: `qml.transforms.convert_to_numpy_parameters` is
not under `src/`.  The spec says parameters must be "converted to concrete
numeric form for the backend call — the backend must never see AD-tracer
objects": the model returns a copy whose parameters are all marked
concrete. -/
def convert_to_numpy_parameters (t : Tape) : Tape :=
  { t with params := t.params.map fun p => { p with concrete := true } }

/-- A tape result as passed through the marshaling stages: a count
dictionary, a Python list of count dictionaries (broadcasted counts — the
only lists reaching `_is_count_result` are all-dictionary lists), a numeric
array tagged with whether it has been converted to the host AD engine's
container type, or a tuple of sub-results (multi-measurement tapes). -/
inductive PyRes
  | dict (d : List (Nat × Nat))
  | dlist (ds : List (List (Nat × Nat)))
  | arr (converted : Bool) (v : List ℚ)
  | tup (rs : List PyRes)

/-- `_is_count_result` (`jax.py` lines 549-551):
`isinstance(r, dict) or isinstance(r, list) and all(isinstance(i, dict) for i
in r)`. -/
def _is_count_result : PyRes → Bool
  | .dict _ => true
  | .dlist _ => true
  | _ => false

/-- `jnp.array(r)`: conversion to the host container type.  It is only ever
applied behind the count guard, so the dictionary cases never reach it. -/
def jnp_array : PyRes → PyRes
  | .arr _ v => .arr true v
  | x => x

end PennyLane

namespace PennyLane.JAX

open PennyLane

/-- `_validate_tapes` restricted to one tape (`jax.py` lines 150-166): raises
for sample/probability measurements mixed with other kinds, and for multiple
probability measurements over differing wire counts. -/
def validate_tape (t : Tape) : Except InterfaceErr Unit :=
  let measurement_types := t.measurements.map Measurement.kind
  let probs_or_sample_measure :=
    measurement_types.contains MeasurementKind.sample
      || measurement_types.contains MeasurementKind.probs
  if probs_or_sample_measure && measurement_types.eraseDups.length > 1 then
    .error .mixedSampleMeasure
  else if measurement_types.contains MeasurementKind.probs
      && (t.measurements.map Measurement.wires).eraseDups.length > 1 then
    .error .multiProbWires
  else
    .ok ()

/-- `_validate_tapes` (`jax.py` lines 140-166): the loop raises at the first
offending tape. -/
def _validate_tapes : List Tape → Except InterfaceErr Unit
  | [] => .ok ()
  | t :: ts =>
    match validate_tape t with
    | .error e => .error e
    | .ok _ => _validate_tapes ts

/-- The forward/backward dispatch decision of the entry points: with no
gradient rule the forward-mode primitive is registered, otherwise the
backward-mode primitive. -/
inductive DispatchMode
  | fwd
  | bwd
deriving DecidableEq, Repr

/-- `execute_legacy` (`jax.py` lines 75-137), up to the dispatch decision: the
`max_diff > 1` guard comes first, then tape validation, then the
trainable-parameter prologue guarded by `_n == 1`, then dispatch on
`gradient_fn is None`.  The returned pair is the tape batch after the
prologue's mutation together with the chosen primitive. -/
def execute_legacy (tapes : List Tape) (gradient_fn : GradientFn)
    (_n max_diff : Nat) : Except InterfaceErr (List Tape × DispatchMode) :=
  if max_diff > 1 then
    .error .firstOrderOnly
  else
    match _validate_tapes tapes with
    | .error e => .error e
    | .ok _ =>
      let tapes' := if _n == 1 then tapes.map recompute_trainable else tapes
      match gradient_fn with
      | .absent => .ok (tapes', .fwd)
      | _ => .ok (tapes', .bwd)

/-- `_set_copy_and_unwrap_tape` (`jax.py` lines 30-33):
`tc = t.bind_new_parameters(a, t.trainable_params);
return convert_to_numpy_parameters(tc) if unwrap else tc`. -/
def _set_copy_and_unwrap_tape (t : Tape) (a : List Param) (unwrap : Bool) : Tape :=
  let tc := bind_new_parameters t a t.trainable_params
  if unwrap then convert_to_numpy_parameters tc else tc

/-- `set_parameters_on_copy_and_unwrap` (`jax.py` lines 36-38). -/
def set_parameters_on_copy_and_unwrap (tapes : List Tape)
    (params : List (List Param)) (unwrap : Bool) : List Tape :=
  (tapes.zip params).map fun ta => _set_copy_and_unwrap_tape ta.1 ta.2 unwrap

/-- `set_parameters_on_copy_and_unwrap` viewed against the caller's tape
store: the call reads the stored tapes and produces fresh copies; nothing is
written back to the store (contrast with the trainable-parameter prologues,
which do write).  First component: the store after the call; second: the new
tapes handed to the backend. -/
def set_parameters_on_copy_and_unwrap_st (store : List Tape)
    (params : List (List Param)) (unwrap : Bool) : List Tape × List Tape :=
  (store, set_parameters_on_copy_and_unwrap store params unwrap)

/-- `execute` (`jax.py` lines 372-424): the trainable-parameter prologue is
guarded by `_n == 1`, then dispatch on `gradient_fn is None`.  The returned
pair is the tape batch after the prologue together with the chosen
primitive. -/
def execute (tapes : List Tape) (gradient_fn : GradientFn) (_n : Nat) :
    List Tape × DispatchMode :=
  let tapes' := if _n == 1 then tapes.map recompute_trainable else tapes
  match gradient_fn with
  | .absent => (tapes', .fwd)
  | _ => (tapes', .bwd)

/-- How the tangent rule obtains the derivative values: `plain` executes the
gradient tapes through the bare backend call `execute_fn`, `dispatcher`
re-enters the execution dispatcher `execute` at the recorded nesting depth
(differentiable registration), `terminal_rule` calls the terminal
device-level gradient function directly. -/
inductive JvpRoute
  | plain
  | dispatcher (n max_diff : Nat)
  | terminal_rule
deriving DecidableEq, Repr

/-- `execute_wrapper_jvp` (`jax.py` lines 457-499), reduced to its choice of
derivative route.  The body contains no `raise`: every path returns
normally, which the `Except` wrapper records as `.ok`. -/
def execute_wrapper_jvp (gradient_fn : GradientFn) (_n max_diff : Nat) :
    Except InterfaceErr JvpRoute :=
  if gradient_fn.is_transform then
    let at_max_diff := _n == max_diff
    if at_max_diff then .ok .plain
    else .ok (.dispatcher (_n + 1) max_diff)
  else
    .ok .terminal_rule

/-- `_raise_vector_valued_fwd` (`jax.py` lines 277-304):
`scalar_outputs = all(t.output_dim == 1 for t in tapes)`; raise when not. -/
def _raise_vector_valued_fwd (tapes : List Tape) : Except InterfaceErr Unit :=
  let scalar_outputs := tapes.all fun t => t.output_dim == 1
  if !scalar_outputs then .error .vectorValuedFwd else .ok ()

/-- A scalar or one-dimensional value as produced by the legacy forward-mode
reshaping loop. -/
inductive JaxNum
  | scalar (x : ℚ)
  | vector (v : List ℚ)
deriving DecidableEq, Repr

/-- The reshaping loop of `_execute_fwd_legacy.wrapped_exec_bwd` (`jax.py`
lines 347-355): each stored jacobian `j` is two-dimensional with
`j.shape = (rows, cols)`; column `i` becomes the scalar `j[0, i]` when there
is a single row, and the column vector `[j[k, i] for k]` otherwise. -/
def reshape_fwd_jac (j : List (List ℚ)) : List JaxNum :=
  (List.range (j.headD []).length).map fun i =>
    if j.length == 1 then .scalar ((j.headD []).getD i 0)
    else .vector (j.map fun row => row.getD i 0)

/-- `_execute_fwd_legacy.wrapped_exec_bwd` (`jax.py` lines 334-356): the
vector-valued guard runs first; if it passes, the jacobian stored on the
forward pass is reshaped and returned. -/
def wrapped_exec_bwd_fwd (tapes : List Tape) (jacs : List (List (List ℚ))) :
    Except InterfaceErr (List (List JaxNum)) :=
  match _raise_vector_valued_fwd tapes with
  | .error e => .error e
  | .ok _ => .ok (jacs.map reshape_fwd_jac)

/-- A result array in the legacy backward rule, as far as the
multi-probability adjustment needs it: one- or two-dimensional. -/
inductive JaxArr
  | one (v : List ℚ)
  | two (m : List (List ℚ))
deriving DecidableEq, Repr

/-- `r.swapaxes(0, 1)` applied when `r.ndim > 1` (`jax.py` lines 231-236). -/
def swap_if_ndim_gt1 : JaxArr → JaxArr
  | .one v => .one v
  | .two m => .two m.transpose

/-- The per-tape predicate assigned inside the loop at `jax.py` lines
222-227: `any(isinstance(m, ProbabilityMP) for m in t.measurements) and
len(t.measurements) > 1`. -/
def multi_probs_pred (t : Tape) : Bool :=
  (t.measurements.any fun m => m.kind == MeasurementKind.probs)
    && t.measurements.length > 1

/-- The loop `for t in tapes: multi_probs = (...)` overwrites the variable on
every iteration, so after the loop it holds the predicate of the LAST tape
only (and is undefined for an empty batch, modelled as `none`). -/
def multi_probs_after_loop (tapes : List Tape) : Option Bool :=
  tapes.foldl (fun _ t => some (multi_probs_pred t)) none

/-- The adjustment step of `_execute_legacy.wrapped_exec_bwd` (`jax.py` lines
222-237): when `multi_probs` ended up true, every partial result with
`ndim > 1` in the whole batch gets its first two axes swapped. -/
def adjust_multi_probs_results (tapes : List Tape) (results : List JaxArr) :
    List JaxArr :=
  match multi_probs_after_loop tapes with
  | some true => results.map swap_if_ndim_gt1
  | _ => results

/-- `_execute_legacy.array_if_not_counts` (`jax.py` lines 181-192): a result
of a tape with a counts measurement is passed through as-is (unless the
circuit is broadcasted, which raises); any other result is converted with
`jnp.array`. -/
def array_if_not_counts (tape : Tape) (r : PyRes) : Except InterfaceErr PyRes :=
  if tape.measurements.any (fun m => m.kind == MeasurementKind.counts) then
    if tape.batch_size ≠ none then .error .broadcastedCounts
    else .ok r
  else .ok (jnp_array r)

/-- `_to_jax` (`jax.py` lines 554-571): count results pass through, tuples
are converted elementwise (counts inside tuples also pass through), anything
else is converted with `jnp.array`. -/
def _to_jax (res : List PyRes) : List PyRes :=
  res.map fun r =>
    if _is_count_result r then r
    else
      match r with
      | PyRes.tup rs =>
        PyRes.tup (rs.map fun ri => if _is_count_result ri then ri else jnp_array ri)
      | _ => jnp_array r

end PennyLane.JAX

namespace PennyLane.Autograd

open PennyLane

/-- The trainable-parameter prologue of both `autograd.execute` (new-return
path, `autograd.py` lines 309-318) and `_execute_legacy` (lines 59-68): the
loop over the tapes runs unconditionally — neither function guards it on the
nesting depth `_n`. -/
def execute_trainable_prologue (tapes : List Tape) (_n : Nat) : List Tape :=
  tapes.map recompute_trainable

/-- How `vjp.grad_fn` obtains the derivative values: `cached` goes through
the single-slot jacobian cache (bare `execute_fn`, no differentiable
registration), `forward_jacs` reuses the jacobians computed on the forward
pass, `plain` executes the vjp tapes through the bare backend call
`execute_fn`, `dispatcher` re-enters the execution dispatcher `execute` at
the recorded nesting depth (differentiable registration), `terminal_rule`
calls the terminal device-level gradient function directly. -/
inductive ExecRoute
  | cached
  | forward_jacs
  | plain
  | dispatcher (n max_diff : Nat)
  | terminal_rule
deriving DecidableEq, Repr

/-- Whether a route executes the gradient tapes through the bare backend call
`execute_fn`, with no differentiable registration: true for the cache
(`execute_fn` inside `_get_jac_with_caching`) and for the direct
`execute_fn(vjp_tapes)` call. -/
def ExecRoute.uses_plain_backend : ExecRoute → Bool
  | .cached => true
  | .plain => true
  | _ => false

/-- One invocation of the backward rule, reduced to its observable effects:
the derivative route taken, the jacobian cache afterwards, and the number of
direct `execute_fn` calls the invocation performed. -/
structure GradFnStep (J : Type) where
  route : ExecRoute
  cache_after : Option J
  exec_fn_calls : Nat
deriving DecidableEq, Repr

/-- `vjp._get_jac_with_caching` (`autograd.py` lines 409-431): single-slot
cache keyed by presence.  On a miss, the gradient tapes of the WHOLE batch
are produced by `map_batch_transform` and executed through ONE `execute_fn`
call; on a hit, no backend call happens.  `jac` stands for the jacobian the
gradient rule produces; the triple is (returned jacobian, cache afterwards,
number of `execute_fn` calls). -/
def _get_jac_with_caching {J : Type} (jac : J) (cache : Option J) :
    J × Option J × Nat :=
  match cache with
  | some j => (j, some j, 0)
  | none => (jac, some jac, 1)

/-- `_vjp_legacy._get_jac_with_caching` (`autograd.py` lines 176-189): the
same single-slot cache, but the population loop runs `for t in tapes`, with
one `execute_fn` call PER TAPE. -/
def _get_jac_with_caching_legacy {J : Type} (num_tapes : Nat) (jac : J)
    (cache : Option J) : J × Option J × Nat :=
  match cache with
  | some j => (j, some j, 0)
  | none => (jac, some jac, num_tapes)

/-- `vjp.grad_fn` (`autograd.py` lines 433-520), reduced to its choice of
derivative route, its cache effect and its direct `execute_fn` calls.
`ans_jacs_nonempty` is the truthiness of `ans[1]`, the jacobians returned by
the forward pass.  The batch is assumed nonempty, so a populated jacobian
list is truthy and the cached branch computes its vjps directly.  The body
contains no `raise`: every path returns normally, which the `Except` wrapper
records as `.ok`. -/
def vjp_grad_fn {J : Type} (gradient_fn : GradientFn) (ans_jacs_nonempty : Bool)
    (_n max_diff : Nat) (jac : J) (cache : Option J) :
    Except InterfaceErr (GradFnStep J) :=
  let computing_jacobian := _n == max_diff
  if gradient_fn.is_param_shift_name && computing_jacobian then
    let r := _get_jac_with_caching jac cache
    .ok { route := .cached, cache_after := r.2.1, exec_fn_calls := r.2.2 }
  else if ans_jacs_nonempty then
    .ok { route := .forward_jacs, cache_after := cache, exec_fn_calls := 0 }
  else if gradient_fn.is_transform then
    if _n == max_diff then
      .ok { route := .plain, cache_after := cache, exec_fn_calls := 1 }
    else
      .ok { route := .dispatcher (_n + 1) max_diff, cache_after := cache,
            exec_fn_calls := 0 }
  else
    .ok { route := .terminal_rule, cache_after := cache, exec_fn_calls := 0 }

/-- `_vjp_legacy.grad_fn` (`autograd.py` lines 191-261): identical branch
structure, but the cache population costs one `execute_fn` call per tape. -/
def vjp_legacy_grad_fn {J : Type} (gradient_fn : GradientFn)
    (ans_jacs_nonempty : Bool) (_n max_diff num_tapes : Nat) (jac : J)
    (cache : Option J) : Except InterfaceErr (GradFnStep J) :=
  let computing_jacobian := _n == max_diff
  if gradient_fn.is_param_shift_name && computing_jacobian then
    let r := _get_jac_with_caching_legacy num_tapes jac cache
    .ok { route := .cached, cache_after := r.2.1, exec_fn_calls := r.2.2 }
  else if ans_jacs_nonempty then
    .ok { route := .forward_jacs, cache_after := cache, exec_fn_calls := 0 }
  else if gradient_fn.is_transform then
    if _n == max_diff then
      .ok { route := .plain, cache_after := cache, exec_fn_calls := 1 }
    else
      .ok { route := .dispatcher (_n + 1) max_diff, cache_after := cache,
            exec_fn_calls := 0 }
  else
    .ok { route := .terminal_rule, cache_after := cache, exec_fn_calls := 0 }

/-- N successive invocations of `vjp.grad_fn` within one backward-pass
invocation of `vjp` (the host AD engine may request the VJP several times
with different cotangents); the cache created by `vjp` is threaded through.
Returns the cache state and the total number of direct `execute_fn` calls. -/
def vjp_grad_fn_iter {J : Type} (gradient_fn : GradientFn)
    (ans_jacs_nonempty : Bool) (_n max_diff : Nat) (jac : J) :
    Nat → Option J × Nat
  | 0 => (none, 0)
  | n + 1 =>
    let prev := vjp_grad_fn_iter gradient_fn ans_jacs_nonempty _n max_diff jac n
    match vjp_grad_fn gradient_fn ans_jacs_nonempty _n max_diff jac prev.1 with
    | .ok s => (s.cache_after, prev.2 + s.exec_fn_calls)
    | .error _ => prev

/-- N successive invocations of `_vjp_legacy.grad_fn` within one
backward-pass invocation of `_vjp_legacy`. -/
def vjp_legacy_grad_fn_iter {J : Type} (gradient_fn : GradientFn)
    (ans_jacs_nonempty : Bool) (_n max_diff num_tapes : Nat) (jac : J) :
    Nat → Option J × Nat
  | 0 => (none, 0)
  | n + 1 =>
    let prev :=
      vjp_legacy_grad_fn_iter gradient_fn ans_jacs_nonempty _n max_diff num_tapes jac n
    match
      vjp_legacy_grad_fn gradient_fn ans_jacs_nonempty _n max_diff num_tapes jac prev.1
    with
    | .ok s => (s.cache_after, prev.2 + s.exec_fn_calls)
    | .error _ => prev

end PennyLane.Autograd

namespace PennyLane.Autograd

/-- A per-tape cotangent or jacobian entry as passed to
`_compute_vjps_autograd`: a single value when the execution is not
partitioned, or a tuple of per-shot-group values when it is. -/
inductive ShotVal (A : Type)
  | single (a : A)
  | groups (xs : List A)
deriving DecidableEq, Repr

/-- `dy_ = dy[i] if has_partitioned_shots else (dy[i],)` followed by
iteration (`autograd.py` lines 529-533): unpartitioned entries are wrapped in
a one-element tuple, partitioned entries are iterated group by group.  A
well-formed unpartitioned execution always carries `single` entries and a
well-formed partitioned one always carries `groups` entries; the two
remaining rows are unreachable for well-formed inputs. -/
def shot_entries {A : Type} (has_partitioned_shots : Bool) : ShotVal A → List A
  | .single a => [a]
  | .groups xs => if has_partitioned_shots then xs else []

/-- `qml.math.sum(qml.math.stack(shot_vjps), axis=0)` (`autograd.py` line
539): stacking equal-length vectors and summing over the stacking axis is the
elementwise sum. -/
def stack_sum : List (List ℚ) → List ℚ
  | [] => []
  | [v] => v
  | v :: w :: vs => v.zipWith (· + ·) (stack_sum (w :: vs))

/-- The body of the `for i, multi in enumerate(multi_measurements)` loop
(`autograd.py` lines 528-539): the per-group contraction rule is
`compute_vjp_multi` when the tape has more than one measurement and
`compute_vjp_single` otherwise, and the per-group contributions are stacked
and summed.  The contraction rules live in `qml.gradients` (outside this
module) and are taken as function arguments. -/
def tape_vjp {D J : Type} (vjp_single vjp_multi : D → J → List ℚ)
    (has_partitioned_shots : Bool) (multi : Bool) (d : ShotVal D)
    (j : ShotVal J) : List ℚ :=
  let pairs :=
    (shot_entries has_partitioned_shots d).zip (shot_entries has_partitioned_shots j)
  stack_sum (pairs.map fun p => if multi then vjp_multi p.1 p.2 else vjp_single p.1 p.2)

/-- `_compute_vjps_autograd` (`autograd.py` lines 525-541): one contribution
per entry of `multi_measurements`, in input-tape order. -/
def _compute_vjps_autograd {D J : Type} (vjp_single vjp_multi : D → J → List ℚ)
    (jacs : List (ShotVal J)) (dy : List (ShotVal D))
    (multi_measurements : List Bool) (has_partitioned_shots : Bool) :
    List (List ℚ) :=
  match multi_measurements, dy, jacs with
  | multi :: mm, d :: dys, j :: js =>
    tape_vjp vjp_single vjp_multi has_partitioned_shots multi d j
      :: _compute_vjps_autograd vjp_single vjp_multi js dys mm has_partitioned_shots
  | _, _, _ => []

/-- `np.tensor(r)` / `qml.math.toarray(r)`: conversion of a numeric array to
the autograd container type. -/
def np_tensor : PyRes → PyRes
  | .arr _ v => .arr true v
  | x => x

/-- The result-marshaling loop of `__execute_legacy` (`autograd.py` lines
116-131): a tape with a counts measurement has its result passed through
untouched (`continue`); otherwise arrays become `np.tensor`s, tuples are
converted elementwise, and anything else goes through `qml.math.toarray`
(dictionary results occur only for counts tapes, so they never reach the
conversion branches).  The `np.hstack` flattening of ragged object-dtype
arrays concerns payloads the model's one-dimensional arrays do not have. -/
def execute_legacy_marshal (tapes : List Tape) (res : List PyRes) : List PyRes :=
  (tapes.zip res).map fun tr =>
    if tr.1.measurements.any (fun m => m.kind == MeasurementKind.counts) then tr.2
    else
      match tr.2 with
      | .arr _ v => .arr true v
      | .tup rs => .tup (rs.map np_tensor)
      | x => x

end PennyLane.Autograd

namespace PennyLane

/-- The nesting depths at which the execution dispatcher can run within one
differentiation instance: the caller enters at `_n = 1` (the entry points'
default), and the only recursive re-entry is the `dispatcher` route of the
backward/tangent rules, which re-invokes `execute` at the depth it records. -/
inductive ReachableDepth (gradient_fn : GradientFn) (max_diff : Nat) : Nat → Prop
  | entry : ReachableDepth gradient_fn max_diff 1
  | recurse (n m md : Nat) (h : ReachableDepth gradient_fn max_diff n)
      (hroute : JAX.execute_wrapper_jvp gradient_fn n max_diff =
        .ok (JAX.JvpRoute.dispatcher m md)) :
      ReachableDepth gradient_fn max_diff m

end PennyLane

namespace PennyLane

/-! ## Concrete tapes used by the witnesses -/

/-- A tape with one trainable parameter and one expectation-value
measurement. -/
def demoTapeA : Tape :=
  { params := [{ val := 1/2, requires_grad := true, concrete := true }],
    trainable_params := [0],
    measurements := [{ kind := .expval, wires := 1 }],
    output_dim := 1,
    batch_size := none }

/-- A tape mixing a sample measurement with an expectation value — rejected
by `_validate_tapes`. -/
def demoTapeMixed : Tape :=
  { params := [],
    trainable_params := [],
    measurements := [{ kind := .sample, wires := 1 }, { kind := .expval, wires := 1 }],
    output_dim := 2,
    batch_size := none }

/-- A tape with two probability measurements (the multi-probability
adjustment predicate holds for it). -/
def demoTapeMultiProbs : Tape :=
  { params := [],
    trainable_params := [],
    measurements := [{ kind := .probs, wires := 1 }, { kind := .probs, wires := 1 }],
    output_dim := 4,
    batch_size := none }

/-- A tape whose stored trainable annotation (empty) differs from what the
prologue recomputes from its parameter list (index 0 is flagged
differentiable). -/
def demoTapeStale : Tape :=
  { params := [{ val := 1, requires_grad := true, concrete := true }],
    trainable_params := [],
    measurements := [{ kind := .expval, wires := 1 }],
    output_dim := 1,
    batch_size := none }

/-- An unbroadcasted tape whose only measurement is a counts measurement. -/
def demoTapeCounts : Tape :=
  { params := [],
    trainable_params := [],
    measurements := [{ kind := .counts, wires := 1 }],
    output_dim := 1,
    batch_size := none }

/-- A fresh (tracer-like, non-concrete) parameter value to substitute into a
tape copy. -/
def demoParamNew : Param :=
  { val := 7, requires_grad := true, concrete := false }

/-! ## C10 — the legacy JAX first-order guard -/

/-- C10: `execute_legacy` raises `InterfaceUnsupportedError` ("first order
derivatives" only) whenever `max_diff > 1`, before tape validation, before
the trainable-parameter prologue and before any dispatch, for every tape
batch, gradient rule and nesting depth. -/
theorem execute_legacy_first_order_guard (tapes : List Tape)
    (gradient_fn : GradientFn) (_n max_diff : Nat) (h : max_diff > 1) :
    JAX.execute_legacy tapes gradient_fn _n max_diff =
      .error InterfaceErr.firstOrderOnly := by
  unfold JAX.execute_legacy
  rw [if_pos h]

/-- Witness for C10 at a concrete input: `max_diff = 2` with a tape batch
that would itself fail validation — the first-order error still wins. -/
theorem execute_legacy_first_order_guard_witness :
    JAX.execute_legacy [demoTapeMixed] (.transform "param_shift") 1 2 =
      .error InterfaceErr.firstOrderOnly :=
  execute_legacy_first_order_guard [demoTapeMixed] (.transform "param_shift") 1 2
    (by decide)

/-! ## C7 — the legacy JAX forward-mode vector-valued guard -/

/-- C7: the legacy forward-mode backward rule raises the "vector-valued"
`InterfaceUnsupportedError` exactly when some tape has `output_dim ≠ 1`;
when every tape is scalar-valued it returns the stored forward-pass
jacobians, reshaped. -/
theorem wrapped_exec_bwd_fwd_vector_valued (tapes : List Tape)
    (jacs : List (List (List ℚ))) :
    (JAX.wrapped_exec_bwd_fwd tapes jacs = .error InterfaceErr.vectorValuedFwd ↔
      ∃ t ∈ tapes, t.output_dim ≠ 1)
    ∧ ((∀ t ∈ tapes, t.output_dim = 1) →
        JAX.wrapped_exec_bwd_fwd tapes jacs = .ok (jacs.map JAX.reshape_fwd_jac)) := by
  unfold JAX.wrapped_exec_bwd_fwd JAX._raise_vector_valued_fwd
  by_cases h : ∀ t ∈ tapes, t.output_dim = 1
  · have hall : (tapes.all fun t => t.output_dim == 1) = true := by
      rw [List.all_eq_true]
      intro t ht
      exact beq_iff_eq.mpr (h t ht)
    rw [hall]
    constructor
    · simp only [Bool.not_true, Bool.false_eq_true, if_false]
      constructor
      · intro hcontra
        cases hcontra
      · rintro ⟨t, ht, hod⟩
        exact absurd (h t ht) hod
    · intro _
      simp
  · have hall : (tapes.all fun t => t.output_dim == 1) = false := by
      rw [Bool.eq_false_iff]
      intro hcontra
      rw [List.all_eq_true] at hcontra
      exact h fun t ht => beq_iff_eq.mp (hcontra t ht)
    rw [hall]
    constructor
    · simp only [Bool.not_false, if_true]
      constructor
      · intro _
        push_neg at h
        obtain ⟨t, ht, hod⟩ := h
        exact ⟨t, ht, hod⟩
      · intro _
        trivial
    · intro hforall
      exact absurd hforall h

/-- Witness for C7: a scalar-output batch returns the reshaped jacobian; the
`2 × 2` stored jacobian is reshaped into its list of column vectors. -/
theorem wrapped_exec_bwd_fwd_vector_valued_witness :
    JAX.wrapped_exec_bwd_fwd [demoTapeA] [[[1, 2], [3, 4]]] =
      .ok [[JAX.JaxNum.vector [1, 3], JAX.JaxNum.vector [2, 4]]] := by
  rw [(wrapped_exec_bwd_fwd_vector_valued [demoTapeA] [[[1, 2], [3, 4]]]).2
    (by decide)]
  rfl

/-! ## C5 — the multi-probability axis-swap decision -/

/-- The loop variable after `for t in tapes: multi_probs = (...)` holds the
predicate of the last tape, whatever the initial state of the variable. -/
theorem multi_probs_foldl_eq_last (tapes : List Tape) (t0 : Tape)
    (h : tapes.getLast? = some t0) (init : Option Bool) :
    tapes.foldl (fun _ t => some (JAX.multi_probs_pred t)) init =
      some (JAX.multi_probs_pred t0) := by
  induction tapes generalizing init with
  | nil => cases h
  | cons a ts ih =>
    cases ts with
    | nil =>
      simp only [List.getLast?_singleton, Option.some_inj] at h
      subst h
      rfl
    | cons b ts' =>
      rw [List.getLast?_cons_cons] at h
      rw [List.foldl_cons]
      exact ih h (some (JAX.multi_probs_pred a))

/-- C5: whether the axis-swap adjustment is applied to the partial results of
ALL tapes is decided solely by the multi-probability predicate of the LAST
tape of the batch: the adjustment equals a map over the whole batch when the
last tape satisfies the predicate and is the identity otherwise, and any two
batches sharing the same last tape make the same decision. -/
theorem axis_swap_last_tape_only (tapes : List Tape) (t0 : Tape)
    (results : List JAX.JaxArr) (h : tapes.getLast? = some t0) :
    (JAX.adjust_multi_probs_results tapes results =
      if JAX.multi_probs_pred t0 then results.map JAX.swap_if_ndim_gt1
      else results)
    ∧ (∀ tapes₂, tapes₂.getLast? = some t0 →
        JAX.adjust_multi_probs_results tapes₂ results =
          JAX.adjust_multi_probs_results tapes results) := by
  have key : ∀ ts : List Tape, ts.getLast? = some t0 →
      JAX.adjust_multi_probs_results ts results =
        if JAX.multi_probs_pred t0 then results.map JAX.swap_if_ndim_gt1
        else results := by
    intro ts hts
    unfold JAX.adjust_multi_probs_results JAX.multi_probs_after_loop
    rw [multi_probs_foldl_eq_last ts t0 hts]
    cases JAX.multi_probs_pred t0 <;> simp
  refine ⟨key tapes h, fun tapes₂ h₂ => ?_⟩
  rw [key tapes₂ h₂, key tapes h]

/-- Witness for C5: the batch `[scalar tape, multi-probability tape]` swaps
the two-dimensional partial results of the whole batch, because the LAST
tape satisfies the predicate. -/
theorem axis_swap_last_tape_only_witness :
    JAX.adjust_multi_probs_results [demoTapeA, demoTapeMultiProbs]
        [JAX.JaxArr.two [[1, 2], [3, 4]], JAX.JaxArr.one [5, 6]] =
      [JAX.JaxArr.two [[1, 3], [2, 4]], JAX.JaxArr.one [5, 6]] := by
  rw [(axis_swap_last_tape_only [demoTapeA, demoTapeMultiProbs]
    demoTapeMultiProbs [JAX.JaxArr.two [[1, 2], [3, 4]], JAX.JaxArr.one [5, 6]]
    rfl).1]
  decide

/-! ## C1 — higher-order recursion: depth increments and base case -/

/-- C1: with a gradient transform as gradient rule, on the backward path (no
forward-pass jacobians): strictly below `max_diff` both backward/tangent
rules re-enter the execution dispatcher at depth exactly `_n + 1` with
`max_diff` unchanged; at `max_diff` both execute the gradient tapes through
the bare backend call with no differentiable registration (the jacobian cache
when the transform is `param_shift`, the direct `execute_fn(vjp_tapes)` call
otherwise); and every depth reachable by this recursion from the entry depth
1 satisfies `1 ≤ _n ≤ max_diff`. -/
theorem transform_backward_recursion {J : Type} (name : String)
    (_n max_diff : Nat) (jac : J) (cache : Option J) :
    (_n < max_diff →
      (Autograd.vjp_grad_fn (.transform name) false _n max_diff jac cache).map
          Autograd.GradFnStep.route =
        .ok (Autograd.ExecRoute.dispatcher (_n + 1) max_diff)
      ∧ JAX.execute_wrapper_jvp (.transform name) _n max_diff =
        .ok (JAX.JvpRoute.dispatcher (_n + 1) max_diff))
    ∧ (_n = max_diff →
      ∃ s, Autograd.vjp_grad_fn (.transform name) false _n max_diff jac cache = .ok s
        ∧ s.route = (if name == "param_shift" then Autograd.ExecRoute.cached
            else Autograd.ExecRoute.plain)
        ∧ s.route.uses_plain_backend = true
        ∧ JAX.execute_wrapper_jvp (.transform name) _n max_diff =
            .ok JAX.JvpRoute.plain)
    ∧ (1 ≤ max_diff → ∀ n, ReachableDepth (.transform name) max_diff n →
        1 ≤ n ∧ n ≤ max_diff) := by
  refine ⟨?_, ?_, ?_⟩
  · intro h
    have hbeq : (_n == max_diff) = false := by
      simp only [beq_eq_false_iff_ne, ne_eq]
      exact Nat.ne_of_lt h
    constructor
    · unfold Autograd.vjp_grad_fn
      simp [GradientFn.is_param_shift_name, GradientFn.is_transform, hbeq,
        Except.map]
    · unfold JAX.execute_wrapper_jvp
      simp [GradientFn.is_transform, hbeq]
  · intro h
    subst h
    by_cases hname : name = "param_shift"
    · subst hname
      cases cache with
      | none =>
        refine ⟨{ route := .cached, cache_after := some jac, exec_fn_calls := 1 },
          ?_, by simp, rfl, ?_⟩
        · unfold Autograd.vjp_grad_fn Autograd._get_jac_with_caching
          simp [GradientFn.is_param_shift_name]
        · unfold JAX.execute_wrapper_jvp
          simp [GradientFn.is_transform]
      | some j =>
        refine ⟨{ route := .cached, cache_after := some j, exec_fn_calls := 0 },
          ?_, by simp, rfl, ?_⟩
        · unfold Autograd.vjp_grad_fn Autograd._get_jac_with_caching
          simp [GradientFn.is_param_shift_name]
        · unfold JAX.execute_wrapper_jvp
          simp [GradientFn.is_transform]
    · have hbeqname : (name == "param_shift") = false := by
        simp only [beq_eq_false_iff_ne, ne_eq]
        exact hname
      refine ⟨{ route := .plain, cache_after := cache, exec_fn_calls := 1 },
        ?_, by simp [hbeqname], rfl, ?_⟩
      · unfold Autograd.vjp_grad_fn
        simp [GradientFn.is_param_shift_name, GradientFn.is_transform, hbeqname]
      · unfold JAX.execute_wrapper_jvp
        simp [GradientFn.is_transform]
  · intro hmd n hreach
    induction hreach with
    | entry => exact ⟨le_refl 1, hmd⟩
    | recurse k m md h hroute ih =>
      unfold JAX.execute_wrapper_jvp at hroute
      simp only [GradientFn.is_transform, if_true] at hroute
      by_cases hk : (k == max_diff) = true
      · rw [if_pos hk] at hroute
        simp at hroute
      · rw [if_neg hk] at hroute
        simp only [Except.ok.injEq, JAX.JvpRoute.dispatcher.injEq] at hroute
        obtain ⟨hm, _⟩ := hroute
        have hkne : k ≠ max_diff := by
          simpa [beq_eq_false_iff_ne] using hk
        have hklt : k < max_diff := Nat.lt_of_le_of_ne ih.2 hkne
        subst hm
        exact ⟨Nat.le_succ_of_le ih.1, Nat.succ_le_of_lt hklt⟩

/-- Witness for C1: with the `param_shift` transform and `max_diff = 2`, the
backward rules at depth 1 re-enter the dispatcher at depth exactly 2, and at
depth 2 the JAX tangent rule takes the plain backend route while the
autograd rule takes the (plain-backend) cached route. -/
theorem transform_backward_recursion_witness :
    ((Autograd.vjp_grad_fn (J := Nat) (.transform "param_shift") false 1 2 0
        none).map Autograd.GradFnStep.route =
      .ok (Autograd.ExecRoute.dispatcher 2 2))
    ∧ JAX.execute_wrapper_jvp (.transform "param_shift") 2 2 =
        .ok JAX.JvpRoute.plain := by
  constructor
  · exact ((transform_backward_recursion (J := Nat) "param_shift" 1 2 0 none).1
      (by decide)).1
  · obtain ⟨s, _, _, _, hjax⟩ :=
      (transform_backward_recursion (J := Nat) "param_shift" 2 2 0 none).2.1 rfl
    exact hjax

/-! ## C4 — terminal gradient rules and higher-order requests -/

/-- C4 counterexample: with a terminal device-level gradient rule
(`adjoint_jacobian`) and `max_diff = 2` — a configuration requesting
derivatives beyond first order — the backward/tangent rules of both modules
return normally through the terminal branch: no error of any kind is raised,
contradicting the claim that such attempts fail with an explicit
"higher-order derivatives unsupported" error condition. -/
theorem terminal_rule_no_error_counterexample :
    (Autograd.vjp_grad_fn (J := Nat) (.device "adjoint_jacobian") false 1 2 0 none =
      .ok { route := .terminal_rule, cache_after := none, exec_fn_calls := 0 })
    ∧ (∀ e, Autograd.vjp_grad_fn (J := Nat) (.device "adjoint_jacobian") false 1 2 0
        none ≠ .error e)
    ∧ JAX.execute_wrapper_jvp (.device "adjoint_jacobian") 1 2 =
        .ok JAX.JvpRoute.terminal_rule
    ∧ (∀ e, JAX.execute_wrapper_jvp (.device "adjoint_jacobian") 1 2 ≠ .error e) := by
  have h1 : Autograd.vjp_grad_fn (J := Nat) (.device "adjoint_jacobian") false 1 2 0
      none = .ok { route := .terminal_rule, cache_after := none, exec_fn_calls := 0 } := by
    rfl
  have h2 : JAX.execute_wrapper_jvp (.device "adjoint_jacobian") 1 2 =
      .ok JAX.JvpRoute.terminal_rule := by
    rfl
  refine ⟨h1, fun e h => ?_, h2, fun e h => ?_⟩
  · rw [h1] at h
    exact Except.noConfusion h
  · rw [h2] at h
    exact Except.noConfusion h

/-- C4 amended: with a terminal (non-transform) gradient rule the backward
and tangent rules never raise and never recurse — for every nesting depth
and every `max_diff` they return normally, on the backward path through the
terminal branch, which computes first-order jacobians from concretized tapes.
Requests beyond first order therefore yield silently non-differentiable
results in these modules rather than an explicit error.  The hypothesis
`name ≠ "param_shift"` excludes the pathological case of a device rule
carrying the transform's name. -/
theorem terminal_rule_silent {J : Type} (name : String)
    (hname : name ≠ "param_shift") (ans_jacs_nonempty : Bool)
    (_n max_diff : Nat) (jac : J) (cache : Option J) :
    (ans_jacs_nonempty = false →
      Autograd.vjp_grad_fn (.device name) ans_jacs_nonempty _n max_diff jac cache =
        .ok { route := .terminal_rule, cache_after := cache, exec_fn_calls := 0 })
    ∧ (∀ e, Autograd.vjp_grad_fn (.device name) ans_jacs_nonempty _n max_diff jac
        cache ≠ .error e)
    ∧ JAX.execute_wrapper_jvp (.device name) _n max_diff =
        .ok JAX.JvpRoute.terminal_rule
    ∧ (∀ e, JAX.execute_wrapper_jvp (.device name) _n max_diff ≠ .error e) := by
  have hbeqname : (name == "param_shift") = false := by
    simp only [beq_eq_false_iff_ne, ne_eq]
    exact hname
  have hps : GradientFn.is_param_shift_name (.device name) = false := by
    simp [GradientFn.is_param_shift_name, hbeqname]
  have hjax : JAX.execute_wrapper_jvp (.device name) _n max_diff =
      .ok JAX.JvpRoute.terminal_rule := by
    unfold JAX.execute_wrapper_jvp
    simp [GradientFn.is_transform]
  refine ⟨?_, ?_, hjax, fun e h => ?_⟩
  · intro hb
    subst hb
    unfold Autograd.vjp_grad_fn
    simp [hps, GradientFn.is_transform]
  · intro e h
    unfold Autograd.vjp_grad_fn at h
    simp [hps, GradientFn.is_transform] at h
    cases ans_jacs_nonempty <;> simp_all
  · rw [hjax] at h
    exact Except.noConfusion h

/-- Witness for the amended C4: the terminal `adjoint_jacobian` rule at
depth 1 with `max_diff = 2` returns the terminal route in both modules. -/
theorem terminal_rule_silent_witness :
    Autograd.vjp_grad_fn (J := Nat) (.device "adjoint_jacobian") false 1 2 0 none =
      .ok { route := .terminal_rule, cache_after := none, exec_fn_calls := 0 } :=
  (terminal_rule_silent (J := Nat) "adjoint_jacobian" (by decide) false 1 2 0
    none).1 rfl

/-! ## C3 — the jacobian cache and backend re-execution -/

/-- C3 counterexample: in the legacy path, the cache-population loop runs
`execute_fn` once PER TAPE, so a single backward-rule invocation for a
two-tape batch with the cache-worthy rule (`param_shift` at
`_n = max_diff = 2`) performs two backend executions — more than the "at
most once" the claim asserts. -/
theorem cache_two_backend_calls_counterexample :
    (Autograd.vjp_legacy_grad_fn_iter (J := Nat) (.transform "param_shift") false
      2 2 2 0 1).2 = 2
    ∧ ¬ (Autograd.vjp_legacy_grad_fn_iter (J := Nat) (.transform "param_shift")
      false 2 2 2 0 1).2 ≤ 1 := by
  constructor
  · rfl
  · decide

/-- One unfolding step of `vjp_grad_fn_iter`. -/
theorem vjp_grad_fn_iter_succ {J : Type} (gradient_fn : GradientFn) (b : Bool)
    (_n max_diff : Nat) (jac : J) (n : Nat) :
    Autograd.vjp_grad_fn_iter gradient_fn b _n max_diff jac (n + 1) =
      (match Autograd.vjp_grad_fn gradient_fn b _n max_diff jac
          (Autograd.vjp_grad_fn_iter gradient_fn b _n max_diff jac n).1 with
        | .ok s =>
          ((s.cache_after : Option J),
            (Autograd.vjp_grad_fn_iter gradient_fn b _n max_diff jac n).2 +
              s.exec_fn_calls)
        | .error _ => Autograd.vjp_grad_fn_iter gradient_fn b _n max_diff jac n) :=
  rfl

/-- One unfolding step of `vjp_legacy_grad_fn_iter`. -/
theorem vjp_legacy_grad_fn_iter_succ {J : Type} (gradient_fn : GradientFn)
    (b : Bool) (_n max_diff num_tapes : Nat) (jac : J) (n : Nat) :
    Autograd.vjp_legacy_grad_fn_iter gradient_fn b _n max_diff num_tapes jac
        (n + 1) =
      (match Autograd.vjp_legacy_grad_fn gradient_fn b _n max_diff num_tapes jac
          (Autograd.vjp_legacy_grad_fn_iter gradient_fn b _n max_diff num_tapes jac
            n).1 with
        | .ok s =>
          ((s.cache_after : Option J),
            (Autograd.vjp_legacy_grad_fn_iter gradient_fn b _n max_diff num_tapes
                jac n).2 + s.exec_fn_calls)
        | .error _ =>
          Autograd.vjp_legacy_grad_fn_iter gradient_fn b _n max_diff num_tapes jac
            n) :=
  rfl

/-- C3 amended: with the cache-worthy rule (`param_shift` name and
`_n = max_diff`), all backend re-execution for jacobian computation happens
in the FIRST backward-rule invocation, which populates the single-slot
cache; every later invocation returns the memoized jacobian with zero
further backend calls.  In the new result-system path the population costs
exactly one `execute_fn` call; in the legacy path it costs one call per
tape. -/
theorem cache_single_population {J : Type} (gradient_fn : GradientFn) (b : Bool)
    (max_diff num_tapes : Nat) (jac : J)
    (hps : gradient_fn.is_param_shift_name = true) (N : Nat) (hN : 1 ≤ N) :
    Autograd.vjp_grad_fn_iter gradient_fn b max_diff max_diff jac N = (some jac, 1)
    ∧ Autograd.vjp_legacy_grad_fn_iter gradient_fn b max_diff max_diff num_tapes
        jac N = (some jac, num_tapes) := by
  have hcond : (gradient_fn.is_param_shift_name && (max_diff == max_diff)) = true := by
    simp [hps]
  have hstep_none :
      Autograd.vjp_grad_fn gradient_fn b max_diff max_diff jac none =
        .ok ⟨.cached, some jac, 1⟩ := by
    unfold Autograd.vjp_grad_fn Autograd._get_jac_with_caching
    rw [if_pos hcond]
  have hstep_some :
      Autograd.vjp_grad_fn gradient_fn b max_diff max_diff jac (some jac) =
        .ok ⟨.cached, some jac, 0⟩ := by
    unfold Autograd.vjp_grad_fn Autograd._get_jac_with_caching
    rw [if_pos hcond]
  have hlstep_none :
      Autograd.vjp_legacy_grad_fn gradient_fn b max_diff max_diff num_tapes jac
          none = .ok ⟨.cached, some jac, num_tapes⟩ := by
    unfold Autograd.vjp_legacy_grad_fn Autograd._get_jac_with_caching_legacy
    rw [if_pos hcond]
  have hlstep_some :
      Autograd.vjp_legacy_grad_fn gradient_fn b max_diff max_diff num_tapes jac
          (some jac) = .ok ⟨.cached, some jac, 0⟩ := by
    unfold Autograd.vjp_legacy_grad_fn Autograd._get_jac_with_caching_legacy
    rw [if_pos hcond]
  obtain ⟨m, rfl⟩ : ∃ m, N = m + 1 := ⟨N - 1, (Nat.succ_pred_eq_of_pos hN).symm⟩
  clear hN
  induction m with
  | zero =>
    constructor
    · rw [vjp_grad_fn_iter_succ]
      simp [Autograd.vjp_grad_fn_iter, hstep_none]
    · rw [vjp_legacy_grad_fn_iter_succ]
      simp [Autograd.vjp_legacy_grad_fn_iter, hlstep_none]
  | succ m ih =>
    obtain ⟨ih1, ih2⟩ := ih
    constructor
    · rw [vjp_grad_fn_iter_succ, ih1, hstep_some]
      rfl
    · rw [vjp_legacy_grad_fn_iter_succ, ih2, hlstep_some]
      rfl

/-- Witness for the amended C3: five backward-rule invocations with a
three-tape legacy batch still total one (new path) and three (legacy path)
backend calls. -/
theorem cache_single_population_witness :
    Autograd.vjp_grad_fn_iter (J := Nat) (.transform "param_shift") false 2 2 0 5 =
      (some 0, 1)
    ∧ Autograd.vjp_legacy_grad_fn_iter (J := Nat) (.transform "param_shift") false
        2 2 3 0 5 = (some 0, 3) :=
  cache_single_population (J := Nat) (.transform "param_shift") false 2 3 0
    (by decide) 5 (by decide)

/-! ## C2 — when the trainable-parameter annotation is recomputed -/

/-- C2 counterexample: the autograd entry points run the
trainable-parameter loop with no guard on the nesting depth, so a nested
call at `_n = 2` REWRITES a tape's trainable annotation instead of leaving
it unchanged as the claim asserts of every execution entry point. -/
theorem trainable_recompute_counterexample :
    Autograd.execute_trainable_prologue [demoTapeStale] 2 =
      [{ demoTapeStale with trainable_params := [0] }]
    ∧ Autograd.execute_trainable_prologue [demoTapeStale] 2 ≠ [demoTapeStale] := by
  constructor
  · decide
  · decide

/-- C2 amended: the JAX execution entry point recomputes each tape's
trainable-parameter annotation from its full parameter list iff `_n = 1`
and leaves the batch untouched on nested calls, while the autograd entry
points (`execute` and `_execute_legacy`) recompute it unconditionally at
every nesting depth. -/
theorem trainable_prologue_guard (tapes : List Tape) (gradient_fn : GradientFn)
    (_n : Nat) :
    (_n ≠ 1 → (JAX.execute tapes gradient_fn _n).1 = tapes)
    ∧ (_n = 1 → (JAX.execute tapes gradient_fn _n).1 =
        tapes.map recompute_trainable)
    ∧ Autograd.execute_trainable_prologue tapes _n = tapes.map recompute_trainable
    ∧ (∀ i t, tapes.get? i = some t →
        (Autograd.execute_trainable_prologue tapes _n).get? i =
          some { t with trainable_params := get_trainable_indices t.params }) := by
  refine ⟨?_, ?_, rfl, ?_⟩
  · intro h
    have hbeq : (_n == 1) = false := by
      simp only [beq_eq_false_iff_ne, ne_eq]
      exact h
    unfold JAX.execute
    cases gradient_fn <;> simp [hbeq]
  · intro h
    subst h
    unfold JAX.execute
    cases gradient_fn <;> simp
  · intro i t ht
    unfold Autograd.execute_trainable_prologue
    rw [List.get?_map, ht]
    rfl

/-- Witness for the amended C2: at depth 2 the JAX entry point leaves the
stale annotation alone while at depth 1 it recomputes it. -/
theorem trainable_prologue_guard_witness :
    (JAX.execute [demoTapeStale] (.transform "param_shift") 2).1 = [demoTapeStale]
    ∧ (JAX.execute [demoTapeStale] (.transform "param_shift") 1).1 =
        [{ demoTapeStale with trainable_params := [0] }] := by
  constructor
  · exact (trainable_prologue_guard [demoTapeStale] (.transform "param_shift")
      2).1 (by decide)
  · rw [(trainable_prologue_guard [demoTapeStale] (.transform "param_shift")
      1).2.1 rfl]
    decide

/-! ## C6 — additivity of shot-partitioned VJP contributions -/

/-- Elementwise access into the pairwise sum of two sufficiently long
vectors. -/
theorem zipWith_add_getD (a b : List ℚ) (k : Nat) (hk : k < a.length)
    (hk' : k < b.length) :
    (a.zipWith (· + ·) b).getD k 0 = a.getD k 0 + b.getD k 0 := by
  induction a generalizing b k with
  | nil => cases hk
  | cons x xs ih =>
    cases b with
    | nil => cases hk'
    | cons y ys =>
      cases k with
      | zero => rfl
      | succ k =>
        simp only [List.zipWith_cons_cons, List.getD_cons_succ]
        exact ih ys k (Nat.lt_of_succ_lt_succ hk) (Nat.lt_of_succ_lt_succ hk')

/-- `stack_sum` of a nonempty family of equal-length vectors keeps that
length (numpy `stack` requires equal shapes). -/
theorem stack_sum_length (vs : List (List ℚ)) (L : Nat)
    (h : ∀ v ∈ vs, v.length = L) (hne : vs ≠ []) :
    (Autograd.stack_sum vs).length = L := by
  induction vs with
  | nil => cases hne rfl
  | cons v vs ih =>
    cases vs with
    | nil => simpa using h v (by simp)
    | cons w ws =>
      have hlen : (Autograd.stack_sum (w :: ws)).length = L :=
        ih (fun u hu => h u (List.mem_cons_of_mem _ hu)) (by simp)
      show (v.zipWith (· + ·) (Autograd.stack_sum (w :: ws))).length = L
      rw [List.length_zipWith, hlen, h v (by simp)]
      exact Nat.min_self L

/-- `stack_sum` is the elementwise arithmetic sum: at every index below the
common length it equals the sum of the entries of the stacked vectors. -/
theorem stack_sum_getD (vs : List (List ℚ)) (L : Nat)
    (h : ∀ v ∈ vs, v.length = L) (k : Nat) (hk : k < L) :
    (Autograd.stack_sum vs).getD k 0 = (vs.map fun v => v.getD k 0).sum := by
  induction vs with
  | nil => simp [Autograd.stack_sum]
  | cons v vs ih =>
    cases vs with
    | nil => simp [Autograd.stack_sum]
    | cons w ws =>
      have h1 : v.length = L := h v (by simp)
      have h2 : ∀ u ∈ w :: ws, u.length = L := fun u hu =>
        h u (List.mem_cons_of_mem _ hu)
      have hlen := stack_sum_length (w :: ws) L h2 (by simp)
      show (v.zipWith (· + ·) (Autograd.stack_sum (w :: ws))).getD k 0 = _
      rw [zipWith_add_getD v _ k (h1 ▸ hk) (hlen ▸ hk), ih h2]
      simp

/-- Index access into `_compute_vjps_autograd`: entry `i` of the output is
the `tape_vjp` of entry `i` of the inputs (order preservation across the
batch). -/
theorem compute_vjps_autograd_get {D J : Type}
    (vjp_single vjp_multi : D → J → List ℚ) (p : Bool) :
    ∀ (mm : List Bool) (dy : List (Autograd.ShotVal D))
      (jacs : List (Autograd.ShotVal J)) (i : Nat) (m : Bool)
      (d : Autograd.ShotVal D) (j : Autograd.ShotVal J),
      mm.get? i = some m → dy.get? i = some d → jacs.get? i = some j →
      (Autograd._compute_vjps_autograd vjp_single vjp_multi jacs dy mm p).get? i =
        some (Autograd.tape_vjp vjp_single vjp_multi p m d j) := by
  intro mm
  induction mm with
  | nil =>
    intro dy jacs i m d j hm
    cases hm
  | cons m0 ms ih =>
    intro dy jacs i m d j hm hd hj
    cases dy with
    | nil => cases hd
    | cons d0 dys =>
      cases jacs with
      | nil => cases hj
      | cons j0 js =>
        cases i with
        | zero =>
          simp only [List.get?_cons_zero, Option.some_inj] at hm hd hj
          subst hm
          subst hd
          subst hj
          rfl
        | succ i =>
          simp only [List.get?_cons_succ] at hm hd hj
          exact ih dys js i m d j hm hd hj

/-- C6: per tape, the `_compute_vjps_autograd` contribution.  With
partitioned shots it is the stacked sum of the per-group contractions — the
contraction rule chosen by the tape's multi-measurement flag — and
elementwise that stacked sum is the arithmetic sum of the per-group entries;
without partitioned shots it is the chosen contraction applied to the tape's
single (cotangent, jacobian) pair. -/
theorem compute_vjps_autograd_shot_additivity {D J : Type}
    (vjp_single vjp_multi : D → J → List ℚ)
    (mm : List Bool) (dy : List (Autograd.ShotVal D))
    (jacs : List (Autograd.ShotVal J)) (i : Nat) (m : Bool) :
    (∀ ds js, mm.get? i = some m → dy.get? i = some (.groups ds) →
      jacs.get? i = some (.groups js) →
      ((Autograd._compute_vjps_autograd vjp_single vjp_multi jacs dy mm
          true).get? i =
        some (Autograd.stack_sum ((ds.zip js).map fun q =>
          if m then vjp_multi q.1 q.2 else vjp_single q.1 q.2)))
      ∧ ∀ L, (∀ q ∈ ds.zip js,
            (if m then vjp_multi q.1 q.2 else vjp_single q.1 q.2).length = L) →
          ∀ k, k < L →
          (Autograd.stack_sum ((ds.zip js).map fun q =>
              if m then vjp_multi q.1 q.2 else vjp_single q.1 q.2)).getD k 0 =
            ((ds.zip js).map fun q =>
              (if m then vjp_multi q.1 q.2 else vjp_single q.1 q.2).getD k 0).sum)
    ∧ (∀ d j, mm.get? i = some m → dy.get? i = some (.single d) →
        jacs.get? i = some (.single j) →
        (Autograd._compute_vjps_autograd vjp_single vjp_multi jacs dy mm
            false).get? i =
          some (if m then vjp_multi d j else vjp_single d j)) := by
  constructor
  · intro ds js hm hd hj
    constructor
    · rw [compute_vjps_autograd_get vjp_single vjp_multi true mm dy jacs i m
        (.groups ds) (.groups js) hm hd hj]
      rfl
    · intro L hL k hk
      rw [stack_sum_getD _ L ?_ k hk]
      · rw [List.map_map]
        rfl
      · intro v hv
        obtain ⟨q, hq, rfl⟩ := List.mem_map.mp hv
        exact hL q hq
  · intro d j hm hd hj
    rw [compute_vjps_autograd_get vjp_single vjp_multi false mm dy jacs i m
      (.single d) (.single j) hm hd hj]
    rfl

/-- Witness for C6: a two-group shot partition with the single-measurement
rule `d * j` sums the per-group contributions `1·3` and `2·4` to `11`, and
an unpartitioned tape contracts its one pair directly. -/
theorem compute_vjps_autograd_shot_additivity_witness :
    (Autograd._compute_vjps_autograd (fun d j : ℚ => [d * j])
        (fun d j : ℚ => [d + j]) [.groups [3, 4]] [.groups [1, 2]] [false]
        true).get? 0 = some [11]
    ∧ (Autograd._compute_vjps_autograd (fun d j : ℚ => [d * j])
        (fun d j : ℚ => [d + j]) [.single 3] [.single 2] [false]
        false).get? 0 = some [6] := by
  constructor
  · rw [((compute_vjps_autograd_shot_additivity (fun d j : ℚ => [d * j])
      (fun d j : ℚ => [d + j]) [false] [.groups [1, 2]] [.groups [3, 4]] 0
      false).1 [1, 2] [3, 4] rfl rfl rfl).1]
    norm_num [Autograd.stack_sum]
  · rw [(compute_vjps_autograd_shot_additivity (fun d j : ℚ => [d * j])
      (fun d j : ℚ => [d + j]) [false] [.single 2] [.single 3] 0
      false).2 2 3 rfl rfl rfl]
    norm_num

/-! ## C8 — count-result pass-through in result marshaling -/

/-- Index access into a mapped zip of two lists. -/
theorem zip_map_get {α β γ : Type} (f : α × β → γ) (as : List α) (bs : List β)
    (i : Nat) (a : α) (b : β) (ha : as.get? i = some a)
    (hb : bs.get? i = some b) :
    ((as.zip bs).map f).get? i = some (f (a, b)) := by
  induction as generalizing bs i with
  | nil => cases ha
  | cons x xs ih =>
    cases bs with
    | nil => cases hb
    | cons y ys =>
      cases i with
      | zero =>
        simp only [List.get?_cons_zero, Option.some_inj] at ha hb
        subst ha
        subst hb
        rfl
      | succ i =>
        simp only [List.get?_cons_succ] at ha hb
        show ((xs.zip ys).map f).get? i = _
        exact ih ys i ha hb

/-- C8: the marshaling stages pass dictionary-valued (count) results through
unmodified while still converting the other tapes' numeric results of the
same batch: `_to_jax` keeps any count result as-is and converts array
results; `array_if_not_counts` passes the result of an unbroadcasted counts
tape through and converts the rest; the legacy autograd loop skips tapes
with a counts measurement (`continue`) and converts the arrays of the
remaining tapes. -/
theorem count_result_pass_through (res : List PyRes) (tapes : List Tape)
    (i : Nat) :
    (∀ r, res.get? i = some r → _is_count_result r = true →
      (JAX._to_jax res).get? i = some r)
    ∧ (∀ b v, res.get? i = some (.arr b v) →
        (JAX._to_jax res).get? i = some (.arr true v))
    ∧ (∀ t r, t.measurements.any (fun m => m.kind == MeasurementKind.counts) =
          true → t.batch_size = none → JAX.array_if_not_counts t r = .ok r)
    ∧ (∀ t b v, t.measurements.any (fun m => m.kind == MeasurementKind.counts) =
          false → JAX.array_if_not_counts t (.arr b v) = .ok (.arr true v))
    ∧ (∀ t r, tapes.get? i = some t → res.get? i = some r →
        t.measurements.any (fun m => m.kind == MeasurementKind.counts) = true →
        (Autograd.execute_legacy_marshal tapes res).get? i = some r)
    ∧ (∀ t b v, tapes.get? i = some t → res.get? i = some (.arr b v) →
        t.measurements.any (fun m => m.kind == MeasurementKind.counts) = false →
        (Autograd.execute_legacy_marshal tapes res).get? i =
          some (.arr true v)) := by
  refine ⟨?_, ?_, ?_, ?_, ?_, ?_⟩
  · intro r hr hcount
    unfold JAX._to_jax
    rw [List.get?_map, hr]
    simp [hcount]
  · intro b v hr
    unfold JAX._to_jax
    rw [List.get?_map, hr]
    rfl
  · intro t r hcounts hbatch
    unfold JAX.array_if_not_counts
    rw [if_pos hcounts, if_neg (by simp [hbatch])]
  · intro t b v hcounts
    unfold JAX.array_if_not_counts
    rw [if_neg (by simp [hcounts])]
    rfl
  · intro t r ht hr hcounts
    unfold Autograd.execute_legacy_marshal
    rw [zip_map_get _ tapes res i t r ht hr]
    simp [hcounts]
  · intro t b v ht hr hcounts
    unfold Autograd.execute_legacy_marshal
    rw [zip_map_get _ tapes res i t (.arr b v) ht hr]
    simp [hcounts]

/-! ## C9 — parameter substitution returns fresh tapes -/

/-- Index access into an enumerated map, generalized over the enumeration
start. -/
theorem enumFrom_map_get {α β : Type} (f : Nat × α → β) :
    ∀ (l : List α) (n i : Nat) (x : α), l.get? i = some x →
      ((l.enumFrom n).map f).get? i = some (f (n + i, x)) := by
  intro l
  induction l with
  | nil =>
    intro n i x hx
    cases hx
  | cons y ys ih =>
    intro n i x hx
    cases i with
    | zero =>
      simp only [List.get?_cons_zero, Option.some_inj] at hx
      subst hx
      rfl
    | succ i =>
      simp only [List.get?_cons_succ] at hx
      show ((ys.enumFrom (n + 1)).map f).get? i = some (f (n + (i + 1), x))
      rw [ih (n + 1) i x hx]
      have harith : n + 1 + i = n + (i + 1) := by omega
      rw [harith]

/-- Index access into `List.enum.map`. -/
theorem enum_map_get {α β : Type} (f : Nat × α → β) (l : List α) (i : Nat)
    (x : α) (hx : l.get? i = some x) :
    (l.enum.map f).get? i = some (f (i, x)) := by
  have h := enumFrom_map_get f l 0 i x hx
  simpa using h

/-- C9: `set_parameters_on_copy_and_unwrap` reads the caller's tape store
and returns fresh parameter-substituted (and, when unwrapping, concretized)
copies; the store itself is unchanged.  The copies substitute values exactly
at the positions of the trainable indices, keep every other parameter, and
preserve every non-parameter field of the tape. -/
theorem set_parameters_on_copy_frame (store : List Tape)
    (params : List (List Param)) (unwrap : Bool) :
    ((JAX.set_parameters_on_copy_and_unwrap_st store params unwrap).1 = store)
    ∧ (∀ i t a, store.get? i = some t → params.get? i = some a →
        (JAX.set_parameters_on_copy_and_unwrap_st store params unwrap).2.get? i =
          some (JAX._set_copy_and_unwrap_tape t a unwrap))
    ∧ (∀ t (a : List Param),
        (bind_new_parameters t a t.trainable_params).trainable_params =
            t.trainable_params
          ∧ (bind_new_parameters t a t.trainable_params).measurements =
            t.measurements
          ∧ (bind_new_parameters t a t.trainable_params).params.length =
            t.params.length)
    ∧ (∀ t (a : List Param) i p, t.params.get? i = some p →
        t.trainable_params.findIdx? (· == i) = none →
        (bind_new_parameters t a t.trainable_params).params.get? i = some p)
    ∧ (∀ t (a : List Param) i p k, t.params.get? i = some p →
        t.trainable_params.findIdx? (· == i) = some k →
        (bind_new_parameters t a t.trainable_params).params.get? i =
          some (a.getD k p)) := by
  refine ⟨rfl, ?_, ?_, ?_, ?_⟩
  · intro i t a ht ha
    exact zip_map_get _ store params i t a ht ha
  · intro t a
    exact ⟨rfl, rfl, by simp [bind_new_parameters]⟩
  · intro t a i p hp hfind
    unfold bind_new_parameters
    rw [enum_map_get _ t.params i p hp]
    simp only [hfind]
  · intro t a i p k hp hfind
    unfold bind_new_parameters
    rw [enum_map_get _ t.params i p hp]
    simp only [hfind]

/-- Witness for C8: a batch pairing a counts tape (dictionary result) with a
numeric tape — the dictionary passes through every marshaling stage
unmodified while the array in the same batch is converted. -/
theorem count_result_pass_through_witness :
    (JAX._to_jax [PyRes.dict [(0, 5)], PyRes.arr false [1, 2]]).get? 0 =
      some (PyRes.dict [(0, 5)])
    ∧ (JAX._to_jax [PyRes.dict [(0, 5)], PyRes.arr false [1, 2]]).get? 1 =
      some (PyRes.arr true [1, 2])
    ∧ JAX.array_if_not_counts demoTapeCounts (PyRes.dict [(0, 5)]) =
      .ok (PyRes.dict [(0, 5)])
    ∧ (Autograd.execute_legacy_marshal [demoTapeCounts, demoTapeA]
        [PyRes.dict [(0, 5)], PyRes.arr false [1, 2]]).get? 0 =
      some (PyRes.dict [(0, 5)])
    ∧ (Autograd.execute_legacy_marshal [demoTapeCounts, demoTapeA]
        [PyRes.dict [(0, 5)], PyRes.arr false [1, 2]]).get? 1 =
      some (PyRes.arr true [1, 2]) := by
  refine ⟨?_, ?_, ?_, ?_, ?_⟩
  · exact (count_result_pass_through
      [PyRes.dict [(0, 5)], PyRes.arr false [1, 2]] [] 0).1
      (PyRes.dict [(0, 5)]) rfl rfl
  · exact (count_result_pass_through
      [PyRes.dict [(0, 5)], PyRes.arr false [1, 2]] [] 1).2.1 false [1, 2] rfl
  · exact (count_result_pass_through [] [] 0).2.2.1 demoTapeCounts
      (PyRes.dict [(0, 5)]) rfl rfl
  · exact (count_result_pass_through
      [PyRes.dict [(0, 5)], PyRes.arr false [1, 2]]
      [demoTapeCounts, demoTapeA] 0).2.2.2.2.1 demoTapeCounts
      (PyRes.dict [(0, 5)]) rfl rfl rfl
  · exact (count_result_pass_through
      [PyRes.dict [(0, 5)], PyRes.arr false [1, 2]]
      [demoTapeCounts, demoTapeA] 1).2.2.2.2.2 demoTapeA false [1, 2] rfl rfl rfl

/-- Witness for C9: substituting a fresh value into the one-tape store
leaves the store equal to the original, returns the bound copy, and the
copy's parameter at the trainable index 0 is the substituted value. -/
theorem set_parameters_on_copy_frame_witness :
    (JAX.set_parameters_on_copy_and_unwrap_st [demoTapeA] [[demoParamNew]]
        true).1 = [demoTapeA]
    ∧ (JAX.set_parameters_on_copy_and_unwrap_st [demoTapeA] [[demoParamNew]]
        true).2.get? 0 =
      some (JAX._set_copy_and_unwrap_tape demoTapeA [demoParamNew] true)
    ∧ (bind_new_parameters demoTapeA [demoParamNew]
        demoTapeA.trainable_params).params.get? 0 = some demoParamNew := by
  refine ⟨(set_parameters_on_copy_frame [demoTapeA] [[demoParamNew]] true).1,
    (set_parameters_on_copy_frame [demoTapeA] [[demoParamNew]] true).2.1 0
      demoTapeA [demoParamNew] rfl rfl, ?_⟩
  rw [(set_parameters_on_copy_frame [demoTapeA] [[demoParamNew]] true).2.2.2.2
    demoTapeA [demoParamNew] 0 ⟨1/2, true, true⟩ 0 rfl rfl]
  rfl

end PennyLane
